import Mathlib

/-!
# Verification of the parallel media-to-collage pipeline

A shallow embedding of `utils/image_processor.py` (class `ImageProcessor`).
Network and video-decoding effects are modelled by an explicit environment
`Env`; filesystem state and the write/network logs are threaded through an
explicit `Eff` record.  Raster images are modelled by their dimensions plus
an opaque content tag (`Img`); pixel data is irrelevant to every claim.
`numpy`/float arithmetic (`np.linspace`) is modelled by exact rational
arithmetic (natural-number division is floor, matching the nonnegative
float-to-int truncation performed by `dtype=int`).
-/

namespace ImageProcessor

/-- A raster image, abstracted to its dimensions and an opaque content tag. -/
structure Img where
  width : Nat
  height : Nat
  tag : String
deriving DecidableEq

/-- One media entry of a post (`{'url': ...}` in the Python post dicts;
the code only ever reads the `url` key). -/
structure MediaRef where
  url : String
deriving DecidableEq

/-- A post dictionary as consumed by the pipeline.  `videoViewCount` is an
optional key in the Python dict, modelled as `Option`; `collage_path` is the
key appended by `generate_collages_parallel` (absent on entry = `none`). -/
structure Post where
  id : String
  type : String
  caption : String
  likesCount : Nat
  commentsCount : Nat
  videoViewCount : Option Nat
  images : List MediaRef
  videos : List MediaRef
  collage_path : Option String := none
deriving DecidableEq

/-- Outcome of streaming a video download (`requests.get(..., stream=True)`
plus the chunk-writing loop in `download_video`). -/
inductive VideoFetchOutcome where
  /-- the request raised before the output file was opened -/
  | netFailEarly : VideoFetchOutcome
  /-- the stream raised after `written` bytes were written to the file -/
  | netFailMid (written : Nat) : VideoFetchOutcome
  /-- the stream completed, writing `size` bytes -/
  | ok (size : Nat) : VideoFetchOutcome
deriving DecidableEq

/-- Video container metadata as reported by `cv2.VideoCapture`. -/
structure VideoMeta where
  total_frames : Nat
  fps : Nat
deriving DecidableEq

/-- The external world: HTTP responses and video-decoder behaviour, keyed by
URL (images, videos) or frame index (decoded frames).  `imageFetch url = none`
models a network or decode failure for that URL. -/
structure Env where
  imageFetch : String → Option Img
  videoFetch : String → VideoFetchOutcome
  openVideo : String → Option VideoMeta
  readFrame : Nat → Option Img

/-- Filesystem and I/O state: files on disk (path, size in bytes), the log of
paths opened for writing, and the log of URLs requested over the network. -/
structure Eff where
  fs : List (String × Nat)
  writes : List String
  net : List String
deriving DecidableEq

/-- Create/truncate a file: record `(p, n)` replacing any previous entry. -/
def fsSet (fs : List (String × Nat)) (p : String) (n : Nat) : List (String × Nat) :=
  (p, n) :: fs.filter (fun e => e.1 ≠ p)

/-- `os.remove p` (no-op when absent, matching guarded removal). -/
def fsRemove (fs : List (String × Nat)) (p : String) : List (String × Nat) :=
  fs.filter (fun e => e.1 ≠ p)

/-- Directory the processor writes into (`output_dir` default). -/
def output_dir : String := "output/collages"

/-- The fixed placeholder produced on image download failure:
`Image.new('RGB', (400, 400), color='gray')`. -/
def placeholder_image : Img := ⟨400, 400, "gray"⟩

/-- `download_image`: bounded-timeout GET; on any failure returns the
gray 400×400 placeholder instead of raising. -/
def download_image (env : Env) (url : String) (eff : Eff) : Img × Eff :=
  let eff' : Eff := { eff with net := eff.net ++ [url] }
  match env.imageFetch url with
  | some img => (img, eff')
  | none => (placeholder_image, eff')

/-- `download_video`: streams the response to `output_path`; verifies the
resulting file exists and is non-empty; on an exception removes the file at
`output_path` (if present) and returns `None`. -/
def download_video (env : Env) (url : String) (output_path : String) (eff : Eff) :
    Option String × Eff :=
  let eff' : Eff := { eff with net := eff.net ++ [url] }
  match env.videoFetch url with
  | .netFailEarly =>
      (none, { eff' with fs := fsRemove eff'.fs output_path })
  | .netFailMid w =>
      (none, { eff' with fs := fsRemove (fsSet eff'.fs output_path w) output_path,
                         writes := eff'.writes ++ [output_path] })
  | .ok size =>
      let eff2 : Eff := { eff' with fs := fsSet eff'.fs output_path size,
                                    writes := eff'.writes ++ [output_path] }
      if (eff2.fs.lookup output_path).isSome ∧ 0 < (eff2.fs.lookup output_path).getD 0 then
        (some output_path, eff2)
      else
        (none, eff2)

/-- `download_images_parallel`: per-index parallel download collected back by
index; each element is `download_image` of the corresponding URL. -/
def download_images_parallel (env : Env) (image_urls : List String) (eff : Eff) :
    List Img × Eff :=
  match image_urls with
  | [] => ([], eff)
  | u :: rest =>
      let r1 := download_image env u eff
      let r2 := download_images_parallel env rest r1.2
      (r1.1 :: r2.1, r2.2)

/-- The grid dimension table of `create_image_collage` (cols, rows). -/
def gridDims (num_images : Nat) : Nat × Nat :=
  if num_images = 1 then (1, 1)
  else if num_images = 2 then (2, 1)
  else if num_images ≤ 4 then (2, 2)
  else if num_images ≤ 6 then (3, 2)
  else (3, 3)

/-- `img.resize((400, 400), LANCZOS)`: stretch-to-fit to the uniform tile. -/
def resizeTile (img : Img) : Img := { img with width := 400, height := 400 }

/-- Paste positions: tile `idx` goes to `((idx % cols) * 400, (idx / cols) * 400)`. -/
def placeGrid (grid_cols : Nat) (tiles : List Img) : List (Nat × Nat × Img) :=
  tiles.enum.map (fun p => ((p.1 % grid_cols) * 400, (p.1 / grid_cols) * 400, p.2))

/-- Python `n` formatted with `:,` (decimal digits grouped in threes by commas),
working on the reversed digit list. -/
def commaRev : List Char → List Char
  | a :: b :: c :: d :: rest => a :: b :: c :: ',' :: commaRev (d :: rest)
  | l => l

/-- `f"{n:,}"`: thousands-grouped decimal rendering of `n`. -/
def commaGroup (n : Nat) : String :=
  (commaRev (Nat.repr n).data.reverse).reverse.asString

/-- The caption preview: truncated to 200 characters with an `"..."` marker. -/
def caption_preview (caption : String) : String :=
  if caption.length > 200 then caption.take 200 ++ "..."
  else caption

/-- The bold stats line shared by both compositors:
`f"❤ {likes:,} likes  💬 {comments:,} comments"`. -/
def stats_line (post_info : Post) : String :=
  "❤ " ++ commaGroup post_info.likesCount ++ " likes  💬 "
    ++ commaGroup post_info.commentsCount ++ " comments"

/-- The rendered collage file: canvas geometry, pasted tiles with their
positions, and the text band contents.  This record models the image written
by `collage.save(...)`; the Python function returns only `path`. -/
structure Collage where
  width : Nat
  height : Nat
  placements : List (Nat × Nat × Img)
  statsText : String
  captionLine : Option String
  typeLabel : String
  path : String
deriving DecidableEq

/-- `create_image_collage`: downloads all URLs (placeholder on failure),
tiles the first `cols*rows` into the grid, renders the text band, and writes
the result under `output_dir`. -/
def create_image_collage (env : Env) (image_urls : List String) (caption : String)
    (post_info : Post) (output_filename : String) (eff : Eff) : Option Collage × Eff :=
  if image_urls.isEmpty then (none, eff)
  else
    let dl := download_images_parallel env image_urls eff
    let images := dl.1
    let num_images := images.length
    let grid_cols := (gridDims num_images).1
    let grid_rows := (gridDims num_images).2
    let resized := (images.take (grid_cols * grid_rows)).map resizeTile
    let cp := caption_preview caption
    let output_path := output_dir ++ "/" ++ output_filename
    let c : Collage :=
      { width := grid_cols * 400
        height := grid_rows * 400 + 150
        placements := placeGrid grid_cols resized
        statsText := stats_line post_info
        captionLine := if cp = "" then none else some ("Caption: " ++ cp)
        typeLabel := if num_images > 1 then "📸 " ++ Nat.repr num_images ++ " images"
                     else "📸 Single image"
        path := output_path }
    (some c, { dl.2 with writes := dl.2.writes ++ [output_path],
                         fs := fsSet dl.2.fs output_path 1 })

/-- Fixed temporary path used for every video download:
`os.path.join(self.output_dir, "temp_video.mp4")`. -/
def temp_video_path : String := output_dir ++ "/temp_video.mp4"

/-- `np.linspace(0, total_frames - 1, num_frames, dtype=int)`: `num_frames`
evenly spaced reals over `[0, total_frames - 1]`, each truncated to an
integer (floor, as all values are nonnegative). -/
def frame_indices (total_frames num_frames : Nat) : List Nat :=
  (List.range num_frames).map (fun i => i * (total_frames - 1) / (num_frames - 1))

/-- `extract_video_frames`: download to the fixed temp path, open with
OpenCV, sample evenly spaced frames (skipping failed reads), and remove the
temp file after a successful loop.  Early-return paths (`download failed`,
`cannot open`, `0 frames`) do not touch the temp file. -/
def extract_video_frames (env : Env) (video_url : String) (num_frames : Nat) (eff : Eff) :
    List Img × Eff :=
  match download_video env video_url temp_video_path eff with
  | (none, eff1) => ([], eff1)
  | (some video_path, eff1) =>
      if (eff1.fs.lookup video_path).isSome = false then ([], eff1)
      else if (eff1.fs.lookup video_path).getD 0 = 0 then ([], eff1)
      else
        match env.openVideo video_path with
        | none => ([], eff1)
        | some meta =>
            if meta.total_frames = 0 then ([], eff1)
            else
              let nf := if meta.total_frames < num_frames then meta.total_frames
                        else num_frames
              let frames := (frame_indices meta.total_frames nf).filterMap env.readFrame
              (frames, { eff1 with fs := fsRemove eff1.fs temp_video_path })

/-- `create_video_collage`: extract 9 frames; empty frame list yields `None`;
otherwise composite a fixed 3×3 grid with the video text band (the stats line
additionally shows the view count when `videoViewCount` is present). -/
def create_video_collage (env : Env) (video_url : String) (caption : String)
    (post_info : Post) (output_filename : String) (eff : Eff) : Option Collage × Eff :=
  let ex := extract_video_frames env video_url 9 eff
  let frames := ex.1
  let eff1 := ex.2
  if frames.isEmpty then (none, eff1)
  else
    let resized := (frames.take 9).map resizeTile
    let stats_text :=
      match post_info.videoViewCount with
      | some v => stats_line post_info ++ "  👁 " ++ commaGroup v ++ " views"
      | none => stats_line post_info
    let cp := caption_preview caption
    let output_path := output_dir ++ "/" ++ output_filename
    let c : Collage :=
      { width := 3 * 400
        height := 3 * 400 + 150
        placements := placeGrid 3 resized
        statsText := stats_text
        captionLine := if cp = "" then none else some ("Caption: " ++ cp)
        typeLabel := "🎥 Video (9 frames)"
        path := output_path }
    (some c, { eff1 with writes := eff1.writes ++ [output_path],
                         fs := fsSet eff1.fs output_path 1 })

/-- `process_post_collage`: dispatch on post type, with unsupported
type/asset combinations falling through to `None` (the function body's
`try/except` absorbs failures; every callee here is total and reports
failure as `none`, so the except-arm is modelled by the `none` results). -/
def process_post_collage (env : Env) (post_data : Post) (post_num : Nat) (eff : Eff) :
    Option String × Eff :=
  if post_data.type = "Video" ∧ post_data.videos ≠ [] then
    match post_data.videos with
    | [] => (none, eff)
    | v :: _ =>
        let r := create_video_collage env v.url post_data.caption post_data
          ("post_" ++ Nat.repr post_num ++ "_video_collage.jpg") eff
        (r.1.map (fun c => c.path), r.2)
  else if (post_data.type = "Image" ∨ post_data.type = "Sidecar")
           ∧ post_data.images ≠ [] then
    let image_urls := post_data.images.map (fun m => m.url)
    let r := create_image_collage env image_urls post_data.caption post_data
      ("post_" ++ Nat.repr post_num ++ "_collage.jpg") eff
    (r.1.map (fun c => c.path), r.2)
  else (none, eff)

/-- The `as_completed` collection loop: completion order is an arbitrary list
of indices; each completed future writes its result into the pre-sized buffer
at its original index. -/
def collect_results (results : Nat → Option String) (order : List Nat)
    (buf : List (Option String)) : List (Option String) :=
  order.foldl (fun b i => b.set i (results i)) buf

/-- The result of the job submitted for index `i` (`process_with_index`):
post number is `idx + 1`. -/
def job_result (env : Env) (posts : List Post) (eff : Eff) (i : Nat) : Option String :=
  match posts[i]? with
  | some post => (process_post_collage env post (i + 1) eff).1
  | none => none

/-- `generate_collages_parallel`: submit one job per post (numbered from 1),
collect results by original index under an arbitrary completion `order`, then
append `collage_path` to each post. -/
def generate_collages_parallel (env : Env) (posts : List Post) (eff : Eff)
    (order : List Nat) : List Post :=
  let collage_paths :=
    collect_results (job_result env posts eff) order (List.replicate posts.length none)
  posts.enum.map (fun p => { p.2 with collage_path := collage_paths.getD p.1 none })

/-- Modelled from the spec: "`targetFrameCount` indices evenly spaced across
`[0, totalFrames-1]` inclusive (linear interpolation, rounded to nearest
integer index)" — the same interpolation points as `frame_indices`, but with
each value rounded to the nearest integer (half rounds up) instead of
truncated. -/
def frame_indices_rounded (total_frames num_frames : Nat) : List Nat :=
  (List.range num_frames).map
    (fun i => (2 * (i * (total_frames - 1)) + (num_frames - 1)) / (2 * (num_frames - 1)))

/-- The decimal digit list of `n`, most significant first (the reference
rendering that `Nat.repr` produces, defined by structural division). -/
def reprDigits (n : Nat) : List Char :=
  if _h : n < 10 then [Nat.digitChar n]
  else reprDigits (n / 10) ++ [Nat.digitChar (n % 10)]
decreasing_by exact Nat.div_lt_self (by omega) (by omega)

/-! Concrete inputs used by witnesses and counterexamples. -/

/-- The empty initial world: no files, no writes, no requests. -/
def eff0 : Eff := ⟨[], [], []⟩

/-- A small decoded image distinct from the placeholder. -/
def imgA : Img := ⟨300, 200, "photoA"⟩

/-- Environment where every image URL resolves and every video fetch fails
before any bytes are written (unreachable URL). -/
def envImgOk : Env :=
  { imageFetch := fun _ => some imgA
    videoFetch := fun _ => .netFailEarly
    openVideo := fun _ => none
    readFrame := fun _ => none }

/-- Environment where the image URL "bad" is unreachable and every other
image URL resolves. -/
def envPartial : Env :=
  { imageFetch := fun u => if u = "bad" then none else some imgA
    videoFetch := fun _ => .netFailEarly
    openVideo := fun _ => none
    readFrame := fun _ => none }

/-- Environment where the video download succeeds with a 0-byte body. -/
def envZeroByte : Env :=
  { imageFetch := fun _ => none
    videoFetch := fun _ => .ok 0
    openVideo := fun _ => none
    readFrame := fun _ => none }

/-- Environment where the video downloads (5 bytes) but OpenCV cannot open
the container. -/
def envNoOpen : Env :=
  { imageFetch := fun _ => none
    videoFetch := fun _ => .ok 5
    openVideo := fun _ => none
    readFrame := fun _ => none }

/-- Environment where the video pipeline fully succeeds: 5-byte download, a
1-frame container, and every frame read succeeding. -/
def envVidOk : Env :=
  { imageFetch := fun _ => some imgA
    videoFetch := fun _ => .ok 5
    openVideo := fun _ => some ⟨1, 1⟩
    readFrame := fun _ => some imgA }

/-- An image post whose metadata carries a view count. -/
def postImgViews : Post :=
  { id := "p1", type := "Image", caption := "", likesCount := 1234, commentsCount := 5
    videoViewCount := some 77777, images := [⟨"u1"⟩], videos := [] }

/-- A video post (first of a two-post batch). -/
def postVid1 : Post :=
  { id := "v1", type := "Video", caption := "", likesCount := 1, commentsCount := 2
    videoViewCount := none, images := [], videos := [⟨"vu1"⟩] }

/-- A Video-typed post carrying no video URL (unsupported combination). -/
def postVidNoUrl : Post :=
  { id := "v0", type := "Video", caption := "c", likesCount := 1, commentsCount := 1
    videoViewCount := none, images := [⟨"u"⟩], videos := [] }

/-- A second video post. -/
def postVid2 : Post :=
  { id := "v2", type := "Video", caption := "", likesCount := 3, commentsCount := 4
    videoViewCount := none, images := [], videos := [⟨"vu2"⟩] }

/-! ## Helper lemmas -/

theorem download_image_fst (env : Env) (url : String) (eff : Eff) :
    (download_image env url eff).1 = (env.imageFetch url).getD placeholder_image := by
  cases h : env.imageFetch url <;> simp [download_image, h]

theorem download_images_parallel_fst (env : Env) (image_urls : List String) :
    ∀ eff : Eff, (download_images_parallel env image_urls eff).1 =
      image_urls.map (fun u => (env.imageFetch u).getD placeholder_image) := by
  induction image_urls with
  | nil => intro eff; rfl
  | cons u rest ih =>
      intro eff
      simp only [download_images_parallel, List.map_cons, List.cons.injEq]
      exact ⟨download_image_fst env u eff, ih _⟩

theorem placeGrid_getElem? (grid_cols : Nat) (tiles : List Img) (i : Nat) :
    (placeGrid grid_cols tiles)[i]? =
      tiles[i]?.map (fun img => ((i % grid_cols) * 400, (i / grid_cols) * 400, img)) := by
  simp only [placeGrid, List.getElem?_map, List.getElem?_enum]
  cases tiles[i]? <;> rfl

theorem placeGrid_bounds (grid_cols grid_rows : Nat) (hc : 0 < grid_cols)
    (tiles : List Img) (hlen : tiles.length ≤ grid_cols * grid_rows) :
    ∀ p ∈ placeGrid grid_cols tiles,
      p.1 + 400 ≤ grid_cols * 400 ∧ p.2.1 + 400 ≤ grid_rows * 400 := by
  intro p hp
  simp only [placeGrid, List.mem_map] at hp
  obtain ⟨q, hq, rfl⟩ := hp
  have hqlt : q.1 < tiles.length := by
    have := List.mem_enum_iff_getElem?.1 hq
    exact (List.getElem?_eq_some.1 this).1
  have hmod : q.1 % grid_cols < grid_cols := Nat.mod_lt _ hc
  have hdiv : q.1 / grid_cols < grid_rows := by
    rw [Nat.div_lt_iff_lt_mul hc]
    calc q.1 < tiles.length := hqlt
    _ ≤ grid_cols * grid_rows := hlen
    _ = grid_rows * grid_cols := Nat.mul_comm _ _
  constructor
  · have : q.1 % grid_cols + 1 ≤ grid_cols := hmod
    calc (q.1 % grid_cols) * 400 + 400 = (q.1 % grid_cols + 1) * 400 := by ring
    _ ≤ grid_cols * 400 := Nat.mul_le_mul_right _ this
  · have : q.1 / grid_cols + 1 ≤ grid_rows := hdiv
    calc (q.1 / grid_cols) * 400 + 400 = (q.1 / grid_cols + 1) * 400 := by ring
    _ ≤ grid_rows * 400 := Nat.mul_le_mul_right _ this

theorem gridDims_cases (n : Nat) :
    gridDims n = (1, 1) ∨ gridDims n = (2, 1) ∨ gridDims n = (2, 2) ∨
    gridDims n = (3, 2) ∨ gridDims n = (3, 3) := by
  unfold gridDims
  by_cases h1 : n = 1 <;> by_cases h2 : n = 2 <;> by_cases h3 : n ≤ 4 <;>
    by_cases h4 : n ≤ 6 <;> simp [h1, h2, h3, h4]

theorem gridDims_pos (n : Nat) : 0 < (gridDims n).1 ∧ 0 < (gridDims n).2 := by
  rcases gridDims_cases n with h | h | h | h | h <;> rw [h] <;> exact ⟨by omega, by omega⟩

theorem create_image_collage_some (env : Env) (image_urls : List String) (caption : String)
    (post_info : Post) (fn : String) (eff : Eff) (h : image_urls ≠ []) :
    (create_image_collage env image_urls caption post_info fn eff).1 = some
      { width := (gridDims image_urls.length).1 * 400
        height := (gridDims image_urls.length).2 * 400 + 150
        placements := placeGrid (gridDims image_urls.length).1
          (((image_urls.map (fun u => (env.imageFetch u).getD placeholder_image)).take
            ((gridDims image_urls.length).1 * (gridDims image_urls.length).2)).map resizeTile)
        statsText := stats_line post_info
        captionLine := if caption_preview caption = "" then none
                       else some ("Caption: " ++ caption_preview caption)
        typeLabel := if image_urls.length > 1 then
                       "📸 " ++ Nat.repr image_urls.length ++ " images"
                     else "📸 Single image"
        path := output_dir ++ "/" ++ fn } := by
  cases image_urls with
  | nil => exact absurd rfl h
  | cons u rest =>
      simp only [create_image_collage, List.isEmpty_cons, Bool.false_eq_true, if_false,
        download_images_parallel_fst, List.length_map]

theorem create_video_collage_none (env : Env) (video_url caption : String)
    (post_info : Post) (fn : String) (eff : Eff)
    (h : (extract_video_frames env video_url 9 eff).1 = []) :
    (create_video_collage env video_url caption post_info fn eff).1 = none := by
  simp only [create_video_collage, h, List.isEmpty_nil, if_true]

theorem create_video_collage_some (env : Env) (video_url caption : String)
    (post_info : Post) (fn : String) (eff : Eff)
    (h : (extract_video_frames env video_url 9 eff).1 ≠ []) :
    (create_video_collage env video_url caption post_info fn eff).1 = some
      { width := 3 * 400
        height := 3 * 400 + 150
        placements := placeGrid 3
          (((extract_video_frames env video_url 9 eff).1.take 9).map resizeTile)
        statsText :=
          match post_info.videoViewCount with
          | some v => stats_line post_info ++ "  👁 " ++ commaGroup v ++ " views"
          | none => stats_line post_info
        captionLine := if caption_preview caption = "" then none
                       else some ("Caption: " ++ caption_preview caption)
        typeLabel := "🎥 Video (9 frames)"
        path := output_dir ++ "/" ++ fn } := by
  rcases hfr : (extract_video_frames env video_url 9 eff).1 with _ | ⟨f0, fr⟩
  · exact absurd hfr h
  · simp only [create_video_collage, hfr, List.isEmpty_cons, Bool.false_eq_true, if_false]

/-! ## C2: grid sizing, canvas dimensions, capacity -/

/-- C2: for an image collage built from `n ≥ 1` input images the grid follows
the fixed table (1×1, 2×1, 2×2, 3×2, 3×3), the canvas is `cols*400` wide and
`rows*400 + 150` tall, when `n > 9` exactly the first 9 downloaded images (in
input order) are placed and the rest dropped, and every placement lies inside
the grid area. -/
theorem create_image_collage_grid (env : Env) (image_urls : List String)
    (caption : String) (post_info : Post) (fn : String) (eff : Eff)
    (h : image_urls ≠ []) :
    ∃ c, (create_image_collage env image_urls caption post_info fn eff).1 = some c ∧
      c.width = (gridDims image_urls.length).1 * 400 ∧
      c.height = (gridDims image_urls.length).2 * 400 + 150 ∧
      (image_urls.length = 1 → gridDims image_urls.length = (1, 1)) ∧
      (image_urls.length = 2 → gridDims image_urls.length = (2, 1)) ∧
      (3 ≤ image_urls.length → image_urls.length ≤ 4 →
        gridDims image_urls.length = (2, 2)) ∧
      (5 ≤ image_urls.length → image_urls.length ≤ 6 →
        gridDims image_urls.length = (3, 2)) ∧
      (7 ≤ image_urls.length → gridDims image_urls.length = (3, 3)) ∧
      (9 < image_urls.length →
        c.placements.length = 9 ∧
        c.placements.map (fun p => p.2.2) =
          ((image_urls.map
              (fun u => (env.imageFetch u).getD placeholder_image)).take 9).map
            resizeTile) ∧
      (∀ p ∈ c.placements, p.1 + 400 ≤ c.width ∧ p.2.1 + 400 + 150 ≤ c.height) := by
  refine ⟨_, create_image_collage_some env image_urls caption post_info fn eff h,
    rfl, rfl, ?_, ?_, ?_, ?_, ?_, ?_, ?_⟩
  · intro h1; unfold gridDims; rw [if_pos h1]
  · intro h2; unfold gridDims; rw [if_neg (by omega), if_pos h2]
  · intro h3 h4; unfold gridDims; rw [if_neg (by omega), if_neg (by omega), if_pos h4]
  · intro h5 h6; unfold gridDims
    rw [if_neg (by omega), if_neg (by omega), if_neg (by omega), if_pos h6]
  · intro h7; unfold gridDims
    rw [if_neg (by omega), if_neg (by omega), if_neg (by omega), if_neg (by omega)]
  · intro h9
    have hg : gridDims image_urls.length = (3, 3) := by
      unfold gridDims
      rw [if_neg (by omega), if_neg (by omega), if_neg (by omega), if_neg (by omega)]
    rw [hg]
    constructor
    · simp only [placeGrid, List.length_map, List.enum_length, List.length_take,
        List.length_map]
      omega
    · simp only [placeGrid]
      rw [List.map_map]
      have hmap : ((fun p : Nat × Nat × Img => p.2.2) ∘
          (fun p : Nat × Img => ((p.1 % 3) * 400, (p.1 / 3) * 400, p.2))) =
          Prod.snd := by
        funext p; rfl
      rw [hmap, List.enum_map_snd]
  · intro p hp
    have hpos := gridDims_pos image_urls.length
    have hb := placeGrid_bounds (gridDims image_urls.length).1
      (gridDims image_urls.length).2 hpos.1
      (((image_urls.map (fun u => (env.imageFetch u).getD placeholder_image)).take
        ((gridDims image_urls.length).1 * (gridDims image_urls.length).2)).map resizeTile)
      (by simp only [List.length_map, List.length_take]; exact Nat.min_le_left _ _)
      p hp
    refine ⟨hb.1, ?_⟩
    show p.2.1 + 400 + 150 ≤ (gridDims image_urls.length).2 * 400 + 150
    have := hb.2
    omega

/-- Witness for C2 at a concrete 10-URL batch: the collage exists, the grid is
3×3, the canvas is 1200×1350, and exactly 9 tiles are placed. -/
theorem create_image_collage_grid_witness :
    ∃ c, (create_image_collage envImgOk
        ["a0", "a1", "a2", "a3", "a4", "a5", "a6", "a7", "a8", "a9"]
        "" postImgViews "f.jpg" eff0).1 = some c ∧
      c.width = 1200 ∧ c.height = 1350 ∧ c.placements.length = 9 := by
  obtain ⟨c, hc, hw, hh, -, -, -, -, h7, h9, -⟩ :=
    create_image_collage_grid envImgOk
      ["a0", "a1", "a2", "a3", "a4", "a5", "a6", "a7", "a8", "a9"]
      "" postImgViews "f.jpg" eff0 (by decide)
  refine ⟨c, hc, ?_, ?_, (h9 (by decide)).1⟩
  · rw [hw, h7 (by decide)]; rfl
  · rw [hh, h7 (by decide)]; rfl

/-! ## C3: frame sampling index sequence -/

/-- C3 counterexample: the code truncates the interpolated values
(`np.linspace(..., dtype=int)` casts toward zero); it does not round to the
nearest integer.  At `totalFrames = 100`, `targetFrameCount = 9` the third
interpolation point is `2 * 99 / 8 = 24.75`, whose nearest integer is 25, but
the code samples frame 24; the two sequences differ. -/
theorem frame_indices_truncates_not_rounds :
    frame_indices 100 9 = [0, 12, 24, 37, 49, 61, 74, 86, 99] ∧
    frame_indices_rounded 100 9 = [0, 12, 25, 37, 50, 62, 74, 87, 99] ∧
    frame_indices 100 9 ≠ frame_indices_rounded 100 9 ∧
    (frame_indices 100 9)[2]? = some 24 ∧
    (frame_indices_rounded 100 9)[2]? = some 25 := by
  decide

/-- C3 amended: with the effective target `nf = min(targetFrameCount,
totalFrames)` reduced when fewer frames exist, the index sequence consists of
`nf` values obtained by linear interpolation across `[0, totalFrames-1]` with
each value truncated (floored), it is strictly increasing, every index is at
most `totalFrames - 1`, the first index is 0, and (when `nf ≥ 2`) the last
index is exactly `totalFrames - 1`. -/
theorem frame_indices_spec (total_frames num_frames nf : Nat)
    (ht : 1 ≤ total_frames)
    (hnf : nf = if total_frames < num_frames then total_frames else num_frames) :
    (frame_indices total_frames nf).length = nf ∧
    frame_indices total_frames nf =
      (List.range nf).map (fun i => i * (total_frames - 1) / (nf - 1)) ∧
    List.Pairwise (· < ·) (frame_indices total_frames nf) ∧
    (∀ x ∈ frame_indices total_frames nf, x ≤ total_frames - 1) ∧
    (1 ≤ num_frames → (frame_indices total_frames nf).head? = some 0) ∧
    (2 ≤ nf → (frame_indices total_frames nf).getLast? = some (total_frames - 1)) := by
  have hle : nf ≤ total_frames := by
    rw [hnf]; split <;> omega
  refine ⟨by simp [frame_indices], rfl, ?_, ?_, ?_, ?_⟩
  · -- strictly increasing
    rcases Nat.lt_or_ge nf 2 with h2 | h2
    · interval_cases nf <;> simp [frame_indices]
    · have hd : 0 < nf - 1 := by omega
      have httd : nf - 1 ≤ total_frames - 1 := by omega
      unfold frame_indices
      refine (List.pairwise_map).2 ((List.pairwise_lt_range nf).imp ?_)
      intro i j hij
      have hstep : i * (total_frames - 1) / (nf - 1) + 1 ≤
          (i + 1) * (total_frames - 1) / (nf - 1) := by
        have h1 : i * (total_frames - 1) + (nf - 1) ≤ (i + 1) * (total_frames - 1) := by
          have : (i + 1) * (total_frames - 1) = i * (total_frames - 1) + (total_frames - 1) := by
            ring
          omega
        calc i * (total_frames - 1) / (nf - 1) + 1
            = (i * (total_frames - 1) + (nf - 1)) / (nf - 1) := by
              rw [Nat.add_div_right _ hd]
        _ ≤ (i + 1) * (total_frames - 1) / (nf - 1) := Nat.div_le_div_right h1
      have hmono : (i + 1) * (total_frames - 1) / (nf - 1) ≤
          j * (total_frames - 1) / (nf - 1) :=
        Nat.div_le_div_right (Nat.mul_le_mul_right _ hij)
      omega
  · -- bounded by total_frames - 1
    intro x hx
    unfold frame_indices at hx
    simp only [List.mem_map, List.mem_range] at hx
    obtain ⟨i, hi, rfl⟩ := hx
    rcases Nat.eq_zero_or_pos (nf - 1) with hd | hd
    · have : i = 0 := by omega
      subst this
      simp
    · have h1 : i * (total_frames - 1) ≤ (nf - 1) * (total_frames - 1) :=
        Nat.mul_le_mul_right _ (by omega)
      calc i * (total_frames - 1) / (nf - 1)
          ≤ (nf - 1) * (total_frames - 1) / (nf - 1) := Nat.div_le_div_right h1
      _ = total_frames - 1 := Nat.mul_div_cancel_left _ hd
  · -- first index is 0
    intro hnum
    have hpos : 0 < nf := by rw [hnf]; split <;> omega
    obtain ⟨k, rfl⟩ := Nat.exists_eq_succ_of_ne_zero (Nat.pos_iff_ne_zero.1 hpos)
    unfold frame_indices
    rw [List.range_succ_eq_map]
    simp
  · -- last index is total_frames - 1
    intro h2
    obtain ⟨m, hm⟩ : ∃ m, nf = m + 1 := ⟨nf - 1, by omega⟩
    subst hm
    have hmpos : 0 < m := by omega
    unfold frame_indices
    rw [List.range_succ, List.map_append, List.getLast?_append]
    simp only [List.map_cons, List.map_nil, List.getLast?_singleton, Option.or_some,
      Option.some.injEq, Nat.add_sub_cancel]
    exact Nat.mul_div_cancel_left _ hmpos

/-- Witness for C3 amended at `totalFrames = 100`, `targetFrameCount = 9`:
exactly 9 strictly increasing indices, starting at 0 and ending at 99. -/
theorem frame_indices_spec_witness :
    (frame_indices 100 9).length = 9 ∧
    List.Pairwise (· < ·) (frame_indices 100 9) ∧
    (frame_indices 100 9).head? = some 0 ∧
    (frame_indices 100 9).getLast? = some 99 := by
  obtain ⟨hlen, -, hpw, -, hhead, hlast⟩ :=
    frame_indices_spec 100 9 9 (by decide) (by decide)
  exact ⟨hlen, hpw, hhead (by decide), hlast (by decide)⟩

/-! ## C7: image fetch fallback and non-null image collages -/

/-- C7: `download_image` never propagates an error — on a failed fetch it
returns the deterministic gray 400×400 placeholder — and an image collage
built from a non-empty URL list is always non-null, with each failed URL
rendered (within grid capacity) as the placeholder tile. -/
theorem download_image_placeholder (env : Env) (url : String) (eff : Eff)
    (image_urls : List String) (caption : String) (post_info : Post) (fn : String)
    (h : image_urls ≠ []) :
    (env.imageFetch url = none →
      (download_image env url eff).1 = placeholder_image) ∧
    placeholder_image = ⟨400, 400, "gray"⟩ ∧
    (∃ c, (create_image_collage env image_urls caption post_info fn eff).1 = some c ∧
      ∀ i u, image_urls[i]? = some u →
        i < (gridDims image_urls.length).1 * (gridDims image_urls.length).2 →
        env.imageFetch u = none →
        (c.placements[i]?).map (fun p => p.2.2) = some placeholder_image) := by
  refine ⟨?_, rfl, ?_⟩
  · intro hfail
    rw [download_image_fst, hfail]
    rfl
  · refine ⟨_, create_image_collage_some env image_urls caption post_info fn eff h, ?_⟩
    intro i u hu hi hfail
    simp only [placeGrid_getElem?, List.getElem?_map, List.getElem?_take_of_lt hi, hu]
    simp [hfail, resizeTile, placeholder_image]

/-- Witness for C7: a two-URL image post where the first URL is unreachable
still yields a collage, with tile 0 the gray placeholder. -/
theorem download_image_placeholder_witness :
    (envPartial.imageFetch "bad" = none →
      (download_image envPartial "bad" eff0).1 = placeholder_image) ∧
    placeholder_image = ⟨400, 400, "gray"⟩ ∧
    (∃ c, (create_image_collage envPartial ["bad", "good"] "" postImgViews
        "f.jpg" eff0).1 = some c ∧
      ∀ i u, (["bad", "good"] : List String)[i]? = some u →
        i < (gridDims (["bad", "good"] : List String).length).1 *
            (gridDims (["bad", "good"] : List String).length).2 →
        envPartial.imageFetch u = none →
        (c.placements[i]?).map (fun p => p.2.2) = some placeholder_image) :=
  download_image_placeholder envPartial "bad" eff0 ["bad", "good"] "" postImgViews
    "f.jpg" (by decide)

/-! ## C10: stats line contents -/

/-- C10 counterexample: the claim requires every composited collage (image
and video alike) to show the thousands-grouped view count when present; but
`create_image_collage` never renders a view count.  Concretely, for an image
post whose metadata has `videoViewCount = 77777`, the image collage's stats
line is exactly `"❤ 1,234 likes  💬 5 comments"` and does not contain the
grouped view count `"77,777"`. -/
theorem image_stats_line_omits_views :
    postImgViews.videoViewCount = some 77777 ∧
    commaGroup 77777 = "77,777" ∧
    ((create_image_collage envImgOk ["u1"] "" postImgViews "f.jpg" eff0).1.map
      Collage.statsText) = some "❤ 1,234 likes  💬 5 comments" ∧
    ¬ (("77,777" : String).data <:+: ("❤ 1,234 likes  💬 5 comments" : String).data) := by
  refine ⟨rfl, by decide, ?_, by decide⟩
  rw [create_image_collage_some envImgOk ["u1"] "" postImgViews "f.jpg" eff0 (by decide)]
  decide

/-- C10 amended: the stats line of every composited collage contains the
thousands-grouped like and comment counts; the thousands-grouped view count
is additionally rendered only on video collages, exactly when a view count is
present in the post metadata (image collages never render it). -/
theorem stats_line_contents :
    (∀ post_info : Post,
      (commaGroup post_info.likesCount).data <:+: (stats_line post_info).data ∧
      (commaGroup post_info.commentsCount).data <:+: (stats_line post_info).data) ∧
    (∀ env image_urls caption post_info fn eff c,
      (create_image_collage env image_urls caption post_info fn eff).1 = some c →
      c.statsText = stats_line post_info) ∧
    (∀ env video_url caption (post_info : Post) fn eff c,
      (create_video_collage env video_url caption post_info fn eff).1 = some c →
      (∀ v, post_info.videoViewCount = some v →
        c.statsText = stats_line post_info ++ "  👁 " ++ commaGroup v ++ " views" ∧
        (commaGroup v).data <:+: c.statsText.data) ∧
      (post_info.videoViewCount = none → c.statsText = stats_line post_info)) := by
  refine ⟨?_, ?_, ?_⟩
  · intro post_info
    constructor
    · exact ⟨("❤ " : String).data,
        (" likes  💬 " ++ commaGroup post_info.commentsCount ++ " comments" : String).data,
        by simp [stats_line]⟩
    · exact ⟨("❤ " ++ commaGroup post_info.likesCount ++ " likes  💬 " : String).data,
        (" comments" : String).data, by simp [stats_line]⟩
  · intro env image_urls caption post_info fn eff c hc
    rcases heq : image_urls with _ | ⟨u, rest⟩
    · rw [heq] at hc
      simp [create_image_collage] at hc
    · rw [heq] at hc
      rw [create_image_collage_some env (u :: rest) caption post_info fn eff
        (by simp)] at hc
      cases hc
      rfl
  · intro env video_url caption post_info fn eff c hc
    rcases hfr : (extract_video_frames env video_url 9 eff).1 with _ | ⟨f0, frest⟩
    · rw [create_video_collage_none env video_url caption post_info fn eff hfr] at hc
      cases hc
    · rw [create_video_collage_some env video_url caption post_info fn eff
        (by rw [hfr]; simp)] at hc
      cases hc
      constructor
      · intro v hv
        constructor
        · simp only [hv]
        · simp only [hv]
          exact ⟨(stats_line post_info ++ "  👁 " : String).data,
            (" views" : String).data, by simp⟩
      · intro hv
        simp only [hv]

/-- Witness for C10 amended: at a concrete video post with
`videoViewCount = 77777`, the video collage stats line carries the grouped
view count, and the grouped like count occurs in the stats line. -/
theorem stats_line_contents_witness :
    (commaGroup postImgViews.likesCount).data <:+: (stats_line postImgViews).data ∧
    ((create_video_collage envVidOk "vu1" "" postImgViews "f.jpg" eff0).1.map
        Collage.statsText) =
      some (stats_line postImgViews ++ "  👁 " ++ commaGroup 77777 ++ " views") := by
  refine ⟨(stats_line_contents.1 postImgViews).1, ?_⟩
  cases hc : (create_video_collage envVidOk "vu1" "" postImgViews "f.jpg" eff0).1 with
  | none => exact absurd hc (by decide)
  | some c =>
      have := ((stats_line_contents.2.2 envVidOk "vu1" "" postImgViews "f.jpg" eff0
        c hc).1 77777 rfl).1
      simp [this]

/-! ## Filesystem lookup lemmas -/

theorem lookup_fsSet (fs : List (String × Nat)) (p : String) (n : Nat) :
    (fsSet fs p n).lookup p = some n := by
  simp [fsSet, List.lookup]

theorem lookup_fsRemove (fs : List (String × Nat)) (p : String) :
    (fsRemove fs p).lookup p = none := by
  induction fs with
  | nil => rfl
  | cons e rest ih =>
      obtain ⟨k, v⟩ := e
      unfold fsRemove at ih ⊢
      by_cases h : k = p
      · rw [List.filter_cons, if_neg (by simp [h])]
        exact ih
      · rw [List.filter_cons, if_pos (by simp [h])]
        simp only [List.lookup]
        rw [(by simp [Ne.symm h] : (p == k) = false)]
        exact ih

/-! ## Equations for `download_video` -/

theorem download_video_netFailEarly (env : Env) (url p : String) (eff : Eff)
    (h : env.videoFetch url = .netFailEarly) :
    download_video env url p eff =
      (none, ⟨fsRemove eff.fs p, eff.writes, eff.net ++ [url]⟩) := by
  simp only [download_video, h]

theorem download_video_netFailMid (env : Env) (url p : String) (eff : Eff) (w : Nat)
    (h : env.videoFetch url = .netFailMid w) :
    download_video env url p eff =
      (none, ⟨fsRemove (fsSet eff.fs p w) p, eff.writes ++ [p], eff.net ++ [url]⟩) := by
  simp only [download_video, h]

theorem download_video_ok_zero (env : Env) (url p : String) (eff : Eff)
    (h : env.videoFetch url = .ok 0) :
    download_video env url p eff =
      (none, ⟨fsSet eff.fs p 0, eff.writes ++ [p], eff.net ++ [url]⟩) := by
  simp only [download_video, h, lookup_fsSet]
  rw [if_neg (by simp)]

theorem download_video_ok_pos (env : Env) (url p : String) (eff : Eff) (s : Nat)
    (h : env.videoFetch url = .ok s) (hs : 0 < s) :
    download_video env url p eff =
      (some p, ⟨fsSet eff.fs p s, eff.writes ++ [p], eff.net ++ [url]⟩) := by
  simp only [download_video, h, lookup_fsSet]
  rw [if_pos (by simp [hs])]

/-! ## C8: video fetch failure handling -/

/-- C8 counterexample: a zero-byte download returns a fetch failure but does
NOT remove the empty file it created — after the call the 0-byte file is
still present at the target path, contradicting "a failed video download
leaves no file at the target path". -/
theorem download_video_zero_byte_leaves_file :
    (download_video envZeroByte "u" "p" eff0).1 = none ∧
    (download_video envZeroByte "u" "p" eff0).2.fs.lookup "p" = some 0 := by
  decide

/-- C8 amended: `download_video` verifies the resulting file is non-empty; on
a network error (before or during streaming) it removes any partial file and
returns a failure; on a zero-byte result it returns a failure but leaves the
empty file at the target path; on a non-empty result it returns the path. -/
theorem download_video_spec (env : Env) (url p : String) (eff : Eff) :
    (env.videoFetch url = .netFailEarly →
      (download_video env url p eff).1 = none ∧
      (download_video env url p eff).2.fs.lookup p = none) ∧
    (∀ w, env.videoFetch url = .netFailMid w →
      (download_video env url p eff).1 = none ∧
      (download_video env url p eff).2.fs.lookup p = none) ∧
    (env.videoFetch url = .ok 0 →
      (download_video env url p eff).1 = none ∧
      (download_video env url p eff).2.fs.lookup p = some 0) ∧
    (∀ s, env.videoFetch url = .ok s → 0 < s →
      (download_video env url p eff).1 = some p ∧
      (download_video env url p eff).2.fs.lookup p = some s) := by
  refine ⟨?_, ?_, ?_, ?_⟩
  · intro h
    rw [download_video_netFailEarly env url p eff h]
    exact ⟨rfl, lookup_fsRemove _ _⟩
  · intro w h
    rw [download_video_netFailMid env url p eff w h]
    exact ⟨rfl, lookup_fsRemove _ _⟩
  · intro h
    rw [download_video_ok_zero env url p eff h]
    exact ⟨rfl, lookup_fsSet _ _ _⟩
  · intro s h hs
    rw [download_video_ok_pos env url p eff s h hs]
    exact ⟨rfl, lookup_fsSet _ _ _⟩

/-- Witness for C8 amended: an early network failure yields no result and no
file; a successful 5-byte download yields the path and the 5-byte file. -/
theorem download_video_spec_witness :
    ((download_video envImgOk "u" "p" eff0).1 = none ∧
      (download_video envImgOk "u" "p" eff0).2.fs.lookup "p" = none) ∧
    ((download_video envVidOk "u" "p" eff0).1 = some "p" ∧
      (download_video envVidOk "u" "p" eff0).2.fs.lookup "p" = some 5) :=
  ⟨(download_video_spec envImgOk "u" "p" eff0).1 rfl,
   (download_video_spec envVidOk "u" "p" eff0).2.2.2 5 rfl (by omega)⟩

/-! ## Equations for `extract_video_frames` -/

theorem extract_netFailEarly (env : Env) (url : String) (n : Nat) (eff : Eff)
    (h : env.videoFetch url = .netFailEarly) :
    extract_video_frames env url n eff =
      ([], ⟨fsRemove eff.fs temp_video_path, eff.writes, eff.net ++ [url]⟩) := by
  simp only [extract_video_frames, download_video_netFailEarly env url temp_video_path eff h]

theorem extract_netFailMid (env : Env) (url : String) (n : Nat) (eff : Eff) (w : Nat)
    (h : env.videoFetch url = .netFailMid w) :
    extract_video_frames env url n eff =
      ([], ⟨fsRemove (fsSet eff.fs temp_video_path w) temp_video_path,
            eff.writes ++ [temp_video_path], eff.net ++ [url]⟩) := by
  simp only [extract_video_frames, download_video_netFailMid env url temp_video_path eff w h]

theorem extract_ok_zero (env : Env) (url : String) (n : Nat) (eff : Eff)
    (h : env.videoFetch url = .ok 0) :
    extract_video_frames env url n eff =
      ([], ⟨fsSet eff.fs temp_video_path 0,
            eff.writes ++ [temp_video_path], eff.net ++ [url]⟩) := by
  simp only [extract_video_frames, download_video_ok_zero env url temp_video_path eff h]

theorem extract_no_open (env : Env) (url : String) (n : Nat) (eff : Eff) (s : Nat)
    (hf : env.videoFetch url = .ok s) (hs : 0 < s)
    (ho : env.openVideo temp_video_path = none) :
    extract_video_frames env url n eff =
      ([], ⟨fsSet eff.fs temp_video_path s,
            eff.writes ++ [temp_video_path], eff.net ++ [url]⟩) := by
  simp only [extract_video_frames, download_video_ok_pos env url temp_video_path eff s hf hs,
    lookup_fsSet, Option.isSome_some, Option.getD_some, ho]
  rw [if_neg (by simp), if_neg (by omega)]

theorem extract_zero_frames (env : Env) (url : String) (n : Nat) (eff : Eff)
    (s : Nat) (meta : VideoMeta)
    (hf : env.videoFetch url = .ok s) (hs : 0 < s)
    (ho : env.openVideo temp_video_path = some meta) (hm : meta.total_frames = 0) :
    extract_video_frames env url n eff =
      ([], ⟨fsSet eff.fs temp_video_path s,
            eff.writes ++ [temp_video_path], eff.net ++ [url]⟩) := by
  simp only [extract_video_frames, download_video_ok_pos env url temp_video_path eff s hf hs,
    lookup_fsSet, Option.isSome_some, Option.getD_some, ho]
  rw [if_neg (by simp), if_neg (by omega), if_pos hm]

theorem extract_success (env : Env) (url : String) (n : Nat) (eff : Eff)
    (s : Nat) (meta : VideoMeta)
    (hf : env.videoFetch url = .ok s) (hs : 0 < s)
    (ho : env.openVideo temp_video_path = some meta) (hm : meta.total_frames ≠ 0) :
    extract_video_frames env url n eff =
      ((frame_indices meta.total_frames
          (if meta.total_frames < n then meta.total_frames else n)).filterMap
          env.readFrame,
       ⟨fsRemove (fsSet eff.fs temp_video_path s) temp_video_path,
        eff.writes ++ [temp_video_path], eff.net ++ [url]⟩) := by
  simp only [extract_video_frames, download_video_ok_pos env url temp_video_path eff s hf hs,
    lookup_fsSet, Option.isSome_some, Option.getD_some, ho]
  rw [if_neg (by simp), if_neg (by omega), if_neg hm]

/-! ## C4: temporary video file cleanup -/

/-- C4 counterexample: when the 5-byte download succeeds but OpenCV cannot
open the container, `extract_video_frames` returns `[]` WITHOUT deleting the
temporary video file — it is still on disk afterwards, contradicting "always
deletes the temporary downloaded video file on every path". -/
theorem extract_leaves_temp_file_on_open_failure :
    (extract_video_frames envNoOpen "u" 9 eff0).1 = [] ∧
    (extract_video_frames envNoOpen "u" 9 eff0).2.fs.lookup temp_video_path = some 5 := by
  decide

/-- C4 amended: `extract_video_frames` deletes the temporary video file on
the successful-open path (non-empty download, container opens, at least one
reported frame), and no temporary file remains when the download itself
raises (e.g. an unreachable URL, which also yields an empty frame list and
hence a null collage); but on the zero-byte-download, container-cannot-open
and zero-frame paths the temporary file is left on disk. -/
theorem extract_video_frames_cleanup (env : Env) (url : String) (eff : Eff) :
    (env.videoFetch url = .netFailEarly →
      (extract_video_frames env url 9 eff).1 = [] ∧
      (extract_video_frames env url 9 eff).2.fs.lookup temp_video_path = none) ∧
    (∀ w, env.videoFetch url = .netFailMid w →
      (extract_video_frames env url 9 eff).1 = [] ∧
      (extract_video_frames env url 9 eff).2.fs.lookup temp_video_path = none) ∧
    (∀ s meta, env.videoFetch url = .ok s → 0 < s →
      env.openVideo temp_video_path = some meta → meta.total_frames ≠ 0 →
      (extract_video_frames env url 9 eff).2.fs.lookup temp_video_path = none) ∧
    (env.videoFetch url = .ok 0 →
      (extract_video_frames env url 9 eff).1 = [] ∧
      (extract_video_frames env url 9 eff).2.fs.lookup temp_video_path = some 0) ∧
    (∀ s, env.videoFetch url = .ok s → 0 < s →
      env.openVideo temp_video_path = none →
      (extract_video_frames env url 9 eff).1 = [] ∧
      (extract_video_frames env url 9 eff).2.fs.lookup temp_video_path = some s) ∧
    (∀ s meta, env.videoFetch url = .ok s → 0 < s →
      env.openVideo temp_video_path = some meta → meta.total_frames = 0 →
      (extract_video_frames env url 9 eff).1 = [] ∧
      (extract_video_frames env url 9 eff).2.fs.lookup temp_video_path = some s) := by
  refine ⟨?_, ?_, ?_, ?_, ?_, ?_⟩
  · intro h
    rw [extract_netFailEarly env url 9 eff h]
    exact ⟨rfl, lookup_fsRemove _ _⟩
  · intro w h
    rw [extract_netFailMid env url 9 eff w h]
    exact ⟨rfl, lookup_fsRemove _ _⟩
  · intro s meta hf hs ho hm
    rw [extract_success env url 9 eff s meta hf hs ho hm]
    exact lookup_fsRemove _ _
  · intro h
    rw [extract_ok_zero env url 9 eff h]
    exact ⟨rfl, lookup_fsSet _ _ _⟩
  · intro s hf hs ho
    rw [extract_no_open env url 9 eff s hf hs ho]
    exact ⟨rfl, lookup_fsSet _ _ _⟩
  · intro s meta hf hs ho hm
    rw [extract_zero_frames env url 9 eff s meta hf hs ho hm]
    exact ⟨rfl, lookup_fsSet _ _ _⟩

/-- Witness for C4 amended: with an unreachable URL no temp file remains and
no frames are produced; on the fully successful environment the temp file is
deleted after extraction. -/
theorem extract_video_frames_cleanup_witness :
    ((extract_video_frames envImgOk "u" 9 eff0).1 = [] ∧
      (extract_video_frames envImgOk "u" 9 eff0).2.fs.lookup temp_video_path = none) ∧
    (extract_video_frames envVidOk "u" 9 eff0).2.fs.lookup temp_video_path = none :=
  ⟨(extract_video_frames_cleanup envImgOk "u" eff0).1 rfl,
   (extract_video_frames_cleanup envVidOk "u" eff0).2.2.1 5 ⟨1, 1⟩ rfl (by omega) rfl
     (by decide)⟩

/-! ## C6: per-post job safety -/

/-- C6: `process_post_collage` is a total function into `Option` (the
`try/except` around the body converts every internal failure into `None`; in
this embedding all failure modes of the callees are already reported as
`none`, as the third conjunct illustrates for an unreachable video URL), and
any unsupported type/asset combination — Video without a video URL,
Image/Sidecar with an empty image list, or an unknown type — returns `none`
with the world state untouched, in particular without any network request. -/
theorem process_post_collage_safe (env : Env) (post : Post) (n : Nat) (eff : Eff) :
    ((process_post_collage env post n eff).1 = none ∨
      ∃ p, (process_post_collage env post n eff).1 = some p) ∧
    (¬ ((post.type = "Video" ∧ post.videos ≠ []) ∨
        ((post.type = "Image" ∨ post.type = "Sidecar") ∧ post.images ≠ [])) →
      process_post_collage env post n eff = (none, eff)) ∧
    (∀ v vs, post.videos = v :: vs → post.type = "Video" →
      env.videoFetch v.url = .netFailEarly →
      (process_post_collage env post n eff).1 = none) := by
  refine ⟨?_, ?_, ?_⟩
  · cases h : (process_post_collage env post n eff).1 with
    | none => exact Or.inl rfl
    | some p => exact Or.inr ⟨p, rfl⟩
  · intro h
    rw [not_or] at h
    unfold process_post_collage
    rw [if_neg h.1, if_neg h.2]
  · intro v vs hv ht hfail
    have hfr : (extract_video_frames env v.url 9 eff).1 = [] := by
      rw [extract_netFailEarly env v.url 9 eff hfail]
    unfold process_post_collage
    rw [if_pos ⟨ht, by rw [hv]; exact List.cons_ne_nil v vs⟩]
    simp only [hv]
    rw [create_video_collage_none env v.url post.caption post
      ("post_" ++ Nat.repr n ++ "_video_collage.jpg") eff hfr]
    rfl

/-- Witness for C6: a Video post without any video URL yields `none` and an
unchanged world (no network I/O); a Video post whose URL is unreachable is
absorbed to `none`. -/
theorem process_post_collage_safe_witness :
    process_post_collage envImgOk postVidNoUrl 1 eff0 = (none, eff0) ∧
    (process_post_collage envImgOk postVid1 1 eff0).1 = none :=
  ⟨(process_post_collage_safe envImgOk postVidNoUrl 1 eff0).2.1 (by decide),
   (process_post_collage_safe envImgOk postVid1 1 eff0).2.2 ⟨"vu1"⟩ [] rfl rfl rfl⟩

/-! ## Lemmas for the collection loop -/

theorem collect_results_length (results : Nat → Option String) (order : List Nat) :
    ∀ buf, (collect_results results order buf).length = buf.length := by
  induction order with
  | nil => intro buf; rfl
  | cons o os ih =>
      intro buf
      simp only [collect_results, List.foldl_cons] at ih ⊢
      rw [ih (buf.set o (results o)), List.length_set]

theorem collect_results_getElem_not_mem (results : Nat → Option String) :
    ∀ (order : List Nat) (j : Nat) (buf : List (Option String)), j ∉ order →
      (collect_results results order buf)[j]? = buf[j]? := by
  intro order
  induction order with
  | nil => intro j buf _; rfl
  | cons o os ih =>
      intro j buf h
      simp only [List.mem_cons, not_or] at h
      simp only [collect_results, List.foldl_cons] at ih ⊢
      rw [ih j (buf.set o (results o)) h.2, List.getElem?_set_ne (by omega)]

theorem collect_results_getElem_mem (results : Nat → Option String) :
    ∀ (order : List Nat) (j : Nat) (buf : List (Option String)), j ∈ order →
      j < buf.length →
      (collect_results results order buf)[j]? = some (results j) := by
  intro order
  induction order with
  | nil => intro j buf h; exact absurd h (List.not_mem_nil j)
  | cons o os ih =>
      intro j buf hmem hlt
      by_cases hjos : j ∈ os
      · simp only [collect_results, List.foldl_cons] at ih ⊢
        exact ih j (buf.set o (results o)) hjos (by rw [List.length_set]; exact hlt)
      · have hjo : j = o := by
          rcases List.mem_cons.1 hmem with h | h
          · exact h
          · exact absurd h hjos
        subst hjo
        simp only [collect_results, List.foldl_cons]
        have := collect_results_getElem_not_mem results os j (buf.set j (results j)) hjos
        simp only [collect_results] at this
        rw [this]
        exact List.getElem?_set_eq_of_lt _ hlt

theorem generate_collages_parallel_getElem (env : Env) (posts : List Post) (eff : Eff)
    (order : List Nat) (i : Nat) (hi : i < posts.length) :
    (generate_collages_parallel env posts eff order)[i]? =
      some { posts[i] with collage_path :=
        (collect_results (job_result env posts eff) order
          (List.replicate posts.length none)).getD i none } := by
  simp only [generate_collages_parallel, List.getElem?_map, List.getElem?_enum,
    List.getElem?_eq_getElem hi]
  rfl

/-! ## C1: result order matches input order -/

/-- C1: whatever the completion order of the submitted jobs — any sequence of
index completions that covers every input index — the aggregated result list
has the same length as the input and its `i`-th element is exactly the `i`-th
input post augmented with the collage path computed by the job for index `i`
(possibly `none`). -/
theorem generate_collages_parallel_order (env : Env) (posts : List Post) (eff : Eff)
    (order : List Nat) (hcov : ∀ i, i < posts.length → i ∈ order) :
    (generate_collages_parallel env posts eff order).length = posts.length ∧
    ∀ i (hi : i < posts.length),
      (generate_collages_parallel env posts eff order)[i]? =
        some { posts[i] with collage_path :=
          (process_post_collage env posts[i] (i + 1) eff).1 } := by
  constructor
  · simp [generate_collages_parallel]
  · intro i hi
    rw [generate_collages_parallel_getElem env posts eff order i hi]
    have h1 : (collect_results (job_result env posts eff) order
        (List.replicate posts.length none))[i]? = some (job_result env posts eff i) :=
      collect_results_getElem_mem _ order i _ (hcov i hi) (by simpa using hi)
    have h2 : (collect_results (job_result env posts eff) order
        (List.replicate posts.length none)).getD i none = job_result env posts eff i := by
      rw [List.getD_eq_getElem?_getD, h1]
      rfl
    rw [h2]
    have h3 : job_result env posts eff i =
        (process_post_collage env posts[i] (i + 1) eff).1 := by
      simp [job_result, List.getElem?_eq_getElem hi]
    rw [h3]

/-- Witness for C1 at a two-post batch completed in reversed order `[1, 0]`:
the output still lists post 0's augmentation first and post 1's second. -/
theorem generate_collages_parallel_order_witness :
    (generate_collages_parallel envVidOk [postVid1, postImgViews] eff0 [1, 0]).length = 2 ∧
    (generate_collages_parallel envVidOk [postVid1, postImgViews] eff0 [1, 0])[0]? =
      some { postVid1 with collage_path :=
        (process_post_collage envVidOk postVid1 1 eff0).1 } ∧
    (generate_collages_parallel envVidOk [postVid1, postImgViews] eff0 [1, 0])[1]? =
      some { postImgViews with collage_path :=
        (process_post_collage envVidOk postImgViews 2 eff0).1 } := by
  have h := generate_collages_parallel_order envVidOk [postVid1, postImgViews] eff0 [1, 0]
    (by decide)
  exact ⟨h.1, h.2 0 (by decide), h.2 1 (by decide)⟩

/-! ## C9: the pipeline only appends `collage_path` -/

/-- C9: every output post keeps all fields of the corresponding input post
(id, type, caption, engagement stats, view count, images, videos); the only
field the pipeline writes is the derived `collage_path`. -/
theorem generate_collages_parallel_preserves_fields (env : Env) (posts : List Post)
    (eff : Eff) (order : List Nat) (i : Nat) (hi : i < posts.length) :
    ∃ post', (generate_collages_parallel env posts eff order)[i]? = some post' ∧
      post'.id = posts[i].id ∧ post'.type = posts[i].type ∧
      post'.caption = posts[i].caption ∧ post'.likesCount = posts[i].likesCount ∧
      post'.commentsCount = posts[i].commentsCount ∧
      post'.videoViewCount = posts[i].videoViewCount ∧
      post'.images = posts[i].images ∧ post'.videos = posts[i].videos :=
  ⟨_, generate_collages_parallel_getElem env posts eff order i hi,
    rfl, rfl, rfl, rfl, rfl, rfl, rfl, rfl⟩

/-- Witness for C9 at a concrete one-post batch: id and media lists of the
output post equal those of the input post. -/
theorem generate_collages_parallel_preserves_fields_witness :
    ((generate_collages_parallel envVidOk [postVid1] eff0 [0])[0]?.map Post.id) =
      some postVid1.id ∧
    ((generate_collages_parallel envVidOk [postVid1] eff0 [0])[0]?.map Post.videos) =
      some postVid1.videos := by
  obtain ⟨p', hp, h1, h2, h3, h4, h5, h6, h7, h8⟩ :=
    generate_collages_parallel_preserves_fields envVidOk [postVid1] eff0 [0] 0 (by decide)
  rw [hp]
  simp only [Option.map_some']
  exact ⟨by rw [h1]; rfl, by rw [h8]; rfl⟩

/-! ## Decimal-rendering lemmas (for filename uniqueness) -/

theorem digitChar_inj_lt : ∀ a < 10, ∀ b < 10, Nat.digitChar a = Nat.digitChar b → a = b := by
  decide

theorem digitChar_isDigit : ∀ a < 10, (Nat.digitChar a).isDigit = true := by
  decide

theorem reprDigits_eq_small (n : Nat) (h : n < 10) :
    reprDigits n = [Nat.digitChar n] := by
  rw [reprDigits, dif_pos h]

theorem reprDigits_eq_large (n : Nat) (h : ¬ n < 10) :
    reprDigits n = reprDigits (n / 10) ++ [Nat.digitChar (n % 10)] := by
  rw [reprDigits]
  exact dif_neg h

theorem reprDigits_ne_nil (n : Nat) : reprDigits n ≠ [] := by
  rw [reprDigits]
  split
  · simp
  · simp

theorem reprDigits_all_digits (n : Nat) : ∀ c ∈ reprDigits n, c.isDigit = true := by
  induction n using Nat.strong_induction_on with
  | _ n ih =>
      intro c hc
      rw [reprDigits] at hc
      split at hc
      · next h =>
          simp only [List.mem_singleton] at hc
          subst hc
          exact digitChar_isDigit n h
      · next h =>
          rcases List.mem_append.1 hc with h1 | h1
          · exact ih (n / 10) (Nat.div_lt_self (by omega) (by omega)) c h1
          · simp only [List.mem_singleton] at h1
            subst h1
            exact digitChar_isDigit (n % 10) (Nat.mod_lt _ (by omega))

theorem reprDigits_inj : ∀ n m : Nat, reprDigits n = reprDigits m → n = m := by
  intro n
  induction n using Nat.strong_induction_on with
  | _ n ih =>
      intro m h
      by_cases hn : n < 10 <;> by_cases hm : m < 10
      · rw [reprDigits_eq_small n hn, reprDigits_eq_small m hm] at h
        simp only [List.cons.injEq, and_true] at h
        exact digitChar_inj_lt n hn m hm h
      · rw [reprDigits_eq_small n hn, reprDigits_eq_large m hm] at h
        have hlen := congrArg List.length h
        cases hx : reprDigits (m / 10) with
        | nil => exact absurd hx (reprDigits_ne_nil _)
        | cons a l =>
            rw [hx] at hlen
            simp at hlen
      · rw [reprDigits_eq_large n hn, reprDigits_eq_small m hm] at h
        have hlen := congrArg List.length h
        cases hx : reprDigits (n / 10) with
        | nil => exact absurd hx (reprDigits_ne_nil _)
        | cons a l =>
            rw [hx] at hlen
            simp at hlen
      · rw [reprDigits_eq_large n hn, reprDigits_eq_large m hm] at h
        have hp := List.append_inj' h (by simp)
        have h1 := ih (n / 10) (Nat.div_lt_self (by omega) (by omega)) (m / 10) hp.1
        have h2 : Nat.digitChar (n % 10) = Nat.digitChar (m % 10) := by
          simpa using hp.2
        have h3 := digitChar_inj_lt (n % 10) (Nat.mod_lt _ (by omega)) (m % 10)
          (Nat.mod_lt _ (by omega)) h2
        omega

theorem toDigitsCore_eq : ∀ (fuel n : Nat) (ds : List Char), n < fuel →
    Nat.toDigitsCore 10 fuel n ds = reprDigits n ++ ds := by
  intro fuel
  induction fuel with
  | zero => intro n ds h; omega
  | succ f ih =>
      intro n ds h
      by_cases h10 : n / 10 = 0
      · have hn : n < 10 := by omega
        simp only [Nat.toDigitsCore]
        rw [if_pos h10, reprDigits_eq_small n hn, Nat.mod_eq_of_lt hn]
        rfl
      · have hn : ¬ n < 10 := by omega
        simp only [Nat.toDigitsCore]
        rw [if_neg h10, ih (n / 10) _ (by omega), reprDigits_eq_large n hn,
          List.append_assoc]
        rfl

theorem repr_data (n : Nat) : (Nat.repr n).data = reprDigits n := by
  show ((Nat.toDigits 10 n).asString).data = reprDigits n
  rw [Nat.toDigits, toDigitsCore_eq (n + 1) n [] (Nat.lt_succ_self n), List.append_nil]
  exact List.toList_asString (reprDigits n)

theorem repr_inj (n m : Nat) (h : Nat.repr n = Nat.repr m) : n = m := by
  apply reprDigits_inj
  have := congrArg String.data h
  rwa [repr_data, repr_data] at this

theorem digits_underscore_cancel :
    ∀ (xs ys as bs : List Char),
      (∀ c ∈ xs, c.isDigit = true) → (∀ c ∈ ys, c.isDigit = true) →
      xs ++ '_' :: as = ys ++ '_' :: bs → xs = ys := by
  intro xs
  induction xs with
  | nil =>
      intro ys as bs _ hys h
      cases ys with
      | nil => rfl
      | cons y ys' =>
          simp only [List.nil_append, List.cons_append, List.cons.injEq] at h
          have hd : y.isDigit = true := hys y (by simp)
          rw [← h.1] at hd
          exact absurd hd (by decide)
  | cons x xs' ih =>
      intro ys as bs hxs hys h
      cases ys with
      | nil =>
          simp only [List.cons_append, List.nil_append, List.cons.injEq] at h
          have hd : x.isDigit = true := hxs x (by simp)
          rw [h.1] at hd
          exact absurd hd (by decide)
      | cons y ys' =>
          simp only [List.cons_append, List.cons.injEq] at h
          have := ih ys' as bs (fun c hc => hxs c (by simp [hc]))
            (fun c hc => hys c (by simp [hc])) h.2
          rw [h.1, this]

/-! ## Output path shapes -/

theorem create_image_collage_nil (env : Env) (caption : String) (post_info : Post)
    (fn : String) (eff : Eff) :
    (create_image_collage env [] caption post_info fn eff).1 = none := by
  simp [create_image_collage]

theorem create_video_collage_path (env : Env) (url caption : String) (post_info : Post)
    (fn : String) (eff : Eff) (c : Collage)
    (h : (create_video_collage env url caption post_info fn eff).1 = some c) :
    c.path = output_dir ++ "/" ++ fn := by
  rcases hfr : (extract_video_frames env url 9 eff).1 with _ | ⟨f0, fr⟩
  · rw [create_video_collage_none env url caption post_info fn eff hfr] at h
    cases h
  · rw [create_video_collage_some env url caption post_info fn eff
      (by rw [hfr]; simp)] at h
    cases h
    rfl

theorem create_image_collage_path (env : Env) (image_urls : List String)
    (caption : String) (post_info : Post) (fn : String) (eff : Eff) (c : Collage)
    (h : (create_image_collage env image_urls caption post_info fn eff).1 = some c) :
    c.path = output_dir ++ "/" ++ fn := by
  rcases image_urls with _ | ⟨u, us⟩
  · rw [create_image_collage_nil] at h
    cases h
  · rw [create_image_collage_some env (u :: us) caption post_info fn eff (by simp)] at h
    cases h
    rfl

theorem process_some_path (env : Env) (post : Post) (n : Nat) (eff : Eff) (a : String)
    (h : (process_post_collage env post n eff).1 = some a) :
    ∃ tail : String, (tail = "_video_collage.jpg" ∨ tail = "_collage.jpg") ∧
      a = output_dir ++ "/" ++ ("post_" ++ Nat.repr n ++ tail) := by
  unfold process_post_collage at h
  by_cases h1 : post.type = "Video" ∧ post.videos ≠ []
  · rw [if_pos h1] at h
    rcases hv : post.videos with _ | ⟨v, vs⟩
    · rw [hv] at h
      cases h
    · rw [hv] at h
      simp only [] at h
      rcases hc : (create_video_collage env v.url post.caption post
          ("post_" ++ Nat.repr n ++ "_video_collage.jpg") eff).1 with _ | c
      · rw [hc] at h
        cases h
      · rw [hc, Option.map_some'] at h
        cases h
        exact ⟨"_video_collage.jpg", Or.inl rfl,
          create_video_collage_path env v.url post.caption post _ eff c hc⟩
  · rw [if_neg h1] at h
    by_cases h2 : (post.type = "Image" ∨ post.type = "Sidecar") ∧ post.images ≠ []
    · rw [if_pos h2] at h
      simp only [] at h
      rcases hc : (create_image_collage env (post.images.map (fun m => m.url))
          post.caption post ("post_" ++ Nat.repr n ++ "_collage.jpg") eff).1 with _ | c
      · rw [hc] at h
        cases h
      · rw [hc, Option.map_some'] at h
        cases h
        exact ⟨"_collage.jpg", Or.inr rfl,
          create_image_collage_path env _ post.caption post _ eff c hc⟩
    · rw [if_neg h2] at h
      cases h

/-! ## C5: job write sets -/

/-- C5 counterexample: the temporary video file path is a single fixed path
shared by every video job in the batch — two distinct video jobs both open
`output/collages/temp_video.mp4` for writing, so their write sets are NOT
disjoint (only the final collage filenames differ). -/
theorem shared_temp_path_not_disjoint :
    (process_post_collage envVidOk postVid1 1 eff0).2.writes =
      [temp_video_path, "output/collages/post_1_video_collage.jpg"] ∧
    (process_post_collage envVidOk postVid2 2 eff0).2.writes =
      [temp_video_path, "output/collages/post_2_video_collage.jpg"] ∧
    temp_video_path ∈ (process_post_collage envVidOk postVid1 1 eff0).2.writes ∧
    temp_video_path ∈ (process_post_collage envVidOk postVid2 2 eff0).2.writes := by
  decide

/-- C5 amended: the collage output filename of a job is derived
deterministically from its sequence number and post type, and two jobs with
distinct sequence numbers can never return (and hence write) the same collage
path — but this uniqueness does NOT extend to the shared temporary video
file. -/
theorem collage_output_paths_unique (env env' : Env) (p q : Post) (n m : Nat)
    (eff eff' : Eff) (a b : String) (hnm : n ≠ m)
    (ha : (process_post_collage env p n eff).1 = some a)
    (hb : (process_post_collage env' q m eff').1 = some b) : a ≠ b := by
  obtain ⟨t1, ht1, rfl⟩ := process_some_path env p n eff a ha
  obtain ⟨t2, ht2, rfl⟩ := process_some_path env' q m eff' b hb
  intro hab
  have hdata := congrArg String.data hab
  simp only [String.data_append, List.append_assoc] at hdata
  have hpre : ∀ (t : String), (t = "_video_collage.jpg" ∨ t = "_collage.jpg") →
      ∃ u : List Char, t.data = '_' :: u := by
    rintro t (rfl | rfl)
    · exact ⟨"video_collage.jpg".data, by decide⟩
    · exact ⟨"collage.jpg".data, by decide⟩
  obtain ⟨u1, hu1⟩ := hpre t1 ht1
  obtain ⟨u2, hu2⟩ := hpre t2 ht2
  rw [hu1, hu2] at hdata
  have hcancel := List.append_cancel_left (List.append_cancel_left
    (List.append_cancel_left hdata))
  have hdig : ∀ k : Nat, ∀ c ∈ (Nat.repr k).data, c.isDigit = true := by
    intro k
    rw [repr_data]
    exact reprDigits_all_digits k
  have hrepr : (Nat.repr n).data = (Nat.repr m).data :=
    digits_underscore_cancel (Nat.repr n).data (Nat.repr m).data u1 u2
      (hdig n) (hdig m) hcancel
  exact hnm (repr_inj n m (String.ext hrepr))

/-- Witness for C5 amended: the two concrete video jobs numbered 1 and 2
return (and write) distinct collage paths. -/
theorem collage_output_paths_unique_witness :
    (process_post_collage envVidOk postVid1 1 eff0).1 =
      some "output/collages/post_1_video_collage.jpg" ∧
    (process_post_collage envVidOk postVid2 2 eff0).1 =
      some "output/collages/post_2_video_collage.jpg" ∧
    "output/collages/post_1_video_collage.jpg" ≠
      "output/collages/post_2_video_collage.jpg" := by
  refine ⟨by decide, by decide, ?_⟩
  exact collage_output_paths_unique envVidOk envVidOk postVid1 postVid2 1 2 eff0 eff0
    _ _ (by omega) (by decide) (by decide)

end ImageProcessor
